import Mathlib

/-!
Shallow embedding of `src/src/measure_uncertainty.py` (class `UncertaintyMeasurer`).

Modelling conventions:
* Python floats are modelled as exact rationals (`ℚ`); the one place the code
  leaves rational arithmetic — the base-2 exponential `2 ** lp` in
  `_calculate_average_confidence` — is modelled with the real power `(2:ℝ) ^ (lp:ℝ)`.
* Provider calls (`self.client.chat.completions.create`) are modelled by oracle
  functions passed in as arguments: `sampleOut i` is the outcome of the i-th
  sampling request (`none` = the request raised), `phraseOut p` is the logprob
  content returned for the phrase-completion request of phrase `p` (`none` = the
  request raised, in which case the code records `0.0`), and `clarifyOut` is the
  outcome of the single fallback-clarification request.  A successful sampling
  request yields `(message.content, logprobs.content)`, each of which the API may
  itself leave absent, hence `Option String × Option (List ℚ)`.
* Python's `round(x, d)` (round-half-to-even in decimal) is modelled exactly by
  `roundTo` on `ℚ` and `roundToR` on `ℝ`.
* The incrementally assembled result dictionaries are modelled as structures with
  `Option` fields: a key absent from the dictionary is `none`.
-/

namespace Unc

/-- Result values of the certainty-ratio computation: a Python float that is
either finite or `float('inf')`. -/
inductive RVal where
  | fin (q : ℚ)
  | inf
deriving DecidableEq

/-- Python's `round` to an integer: round half to even. -/
def roundHalfEven (q : ℚ) : ℤ :=
  let f := ⌊q⌋
  let r := q - f
  if r < 1/2 then f
  else if 1/2 < r then f + 1
  else if f % 2 = 0 then f else f + 1

/-- Python's `round(q, d)` on an exact rational. -/
def roundTo (q : ℚ) (d : ℕ) : ℚ := (roundHalfEven (q * 10 ^ d) : ℚ) / 10 ^ d

/-- Round half to even on a real number. -/
noncomputable def roundHalfEvenR (x : ℝ) : ℤ :=
  let f := ⌊x⌋
  let r := x - f
  if r < 1/2 then f
  else if 1/2 < r then f + 1
  else if f % 2 = 0 then f else f + 1

/-- Python's `round(x, d)` on a real number. -/
noncomputable def roundToR (x : ℝ) (d : ℕ) : ℝ := (roundHalfEvenR (x * 10 ^ d) : ℝ) / 10 ^ d

/-- Python's `round(x, d)` applied to a possibly infinite float
(`round(float('inf'), d)` is `float('inf')`). -/
def roundRV : RVal → ℕ → RVal
  | RVal.fin q, d => RVal.fin (roundTo q d)
  | RVal.inf, _ => RVal.inf

/-- `UncertaintyMeasurer._calculate_mean_logprob`: the running totals
`(total_logprob, total_tokens)` of the loop.  A `none` entry is a failed sample
(`if logprobs and logprobs.content:` skips it); an empty content list is skipped
by the same test with the same effect on the totals. -/
def logprobTotals (logprobs_data : List (Option (List ℚ))) : ℚ × ℕ :=
  logprobs_data.foldl
    (fun acc lp =>
      match lp with
      | none => acc
      | some content => content.foldl (fun a t => (a.1 + t, a.2 + 1)) acc)
    ((0 : ℚ), (0 : ℕ))

/-- `UncertaintyMeasurer._calculate_mean_logprob`: mean log probability over all
tokens of all valid entries; `0.0` when there are no tokens (this also covers
the `if not logprobs_data: return 0.0` entry check). -/
def calculate_mean_logprob (logprobs_data : List (Option (List ℚ))) : ℚ :=
  let totals := logprobTotals logprobs_data
  if totals.2 = 0 then 0 else totals.1 / totals.2

/-- `UncertaintyMeasurer._calculate_average_confidence`: the running totals
`(total_confidence, total_tokens)` of the loop, converting each token
log-probability to a linear probability via `2 ** lp`. -/
noncomputable def confidenceTotals (logprobs_data : List (Option (List ℚ))) : ℝ × ℕ :=
  logprobs_data.foldl
    (fun acc lp =>
      match lp with
      | none => acc
      | some content =>
          content.foldl (fun (a : ℝ × ℕ) (t : ℚ) => (a.1 + (2 : ℝ) ^ (t : ℝ), a.2 + 1)) acc)
    ((0 : ℝ), (0 : ℕ))

/-- `UncertaintyMeasurer._calculate_average_confidence`: average of `2 ** lp`
over all tokens of all valid entries; `0.0` when there are no tokens (this also
covers the `if not logprobs_data: return 0.0` entry check). -/
noncomputable def calculate_average_confidence (logprobs_data : List (Option (List ℚ))) : ℝ :=
  let totals := confidenceTotals logprobs_data
  if totals.2 = 0 then 0 else totals.1 / totals.2

/-- The flat list of all token log-probabilities of all valid entries, in order
 (specification-side view of the two accumulation loops). -/
def flatTokens (logprobs_data : List (Option (List ℚ))) : List ℚ :=
  (logprobs_data.filterMap id).flatten

/-- The fixed uncertainty-phrase list of `measure_uncertainty`. -/
def uncertainty_phrases : List String := ["I'm not sure", "I'm insecure", "I need help"]

/-- `UncertaintyMeasurer._get_phrase_logprobs`: one deterministic completion
request per phrase; on success its mean log-probability (via
`_calculate_mean_logprob([logprobs_data])`), on a raised request the default
`0.0`.  The Python dict keyed by the (distinct) phrases is modelled as an
association list in phrase order. -/
def get_phrase_logprobs (phraseOut : String → Option (List ℚ)) (phrases : List String) :
    List (String × ℚ) :=
  phrases.map fun p =>
    match phraseOut p with
    | some content => (p, calculate_mean_logprob [some content])
    | none => (p, 0)

/-- The mean of the per-phrase mean log-probabilities:
`sum(phrase_logprobs.values()) / len(phrase_logprobs) if phrase_logprobs else 0.0`. -/
def phrase_mean_logprob (pl : List (String × ℚ)) : ℚ :=
  if pl.isEmpty then 0 else (pl.map Prod.snd).sum / (pl.length : ℚ)

/-- Lines 105-108 of `measure_uncertainty`: the certainty ratio, guarding the
division by zero (`float('inf')` when the phrase mean is positive, else `0.0`). -/
def compute_ratio (uncertainty_phrase_mean answer_mean_logprob : ℚ) : RVal :=
  if answer_mean_logprob ≠ 0 then RVal.fin (uncertainty_phrase_mean / answer_mean_logprob)
  else if 0 < uncertainty_phrase_mean then RVal.inf
  else RVal.fin 0

/-- Python's `uncertainty_ratio > uncertainty_threshold` where the ratio may be
`float('inf')` and the threshold is finite. -/
def rvalGT (r : RVal) (t : ℚ) : Bool :=
  match r with
  | RVal.inf => true
  | RVal.fin q => decide (t < q)

/-- The value of an `RVal` in the extended reals. -/
noncomputable def RVal.toEReal : RVal → EReal
  | RVal.fin q => ((q : ℝ) : EReal)
  | RVal.inf => ⊤

/-- `UncertaintyMeasurer._generate_uncertainty_message`.  The prompt and the
first valid response only shape the provider request (they are interpolated
into the messages sent); the returned string depends only on the request's
outcome `clarifyOut`: on success the stripped completion is wrapped, on a
raised request the fixed generic clarification is returned — the `except`
branch means this function never raises. -/
def generate_uncertainty_message (clarifyOut : Option String) (prompt : String)
    (responses : List (Option String)) : String :=
  match clarifyOut with
  | some detail =>
      "I'm unsure about " ++ detail.trim ++
        "\n\nCould you please provide more information or clarify your question?"
  | none =>
      "I'm unsure about how to answer this question accurately. Could you please provide more information or clarify your question?"

/-- The `analysis` dictionary of `measure_uncertainty` /
`_analyze_uncertainty`: incrementally assembled, so every key that is set on
only some paths is an `Option` (`none` = key absent). `uncertainty_level` is
set on every path. -/
structure Analysis where
  error : Option String := none
  uncertainty_level : String := ""
  unique_responses : Option ℕ := none
  total_samples : Option ℕ := none
  response_diversity : Option ℚ := none
  average_token_confidence : Option ℝ := none
  recommendation : Option String := none
  answer_mean_logprob : Option ℚ := none
  uncertainty_phrase_logprobs : Option (List (String × ℚ)) := none
  uncertainty_phrase_mean_logprob : Option ℚ := none
  uncertainty_ratio : Option RVal := none
  uncertainty_threshold : Option ℚ := none
  is_uncertain : Option Bool := none

/-- `UncertaintyMeasurer._analyze_uncertainty`: filters the failed samples, and
either degenerates to the error analysis (no valid responses) or reports
diversity (uniqueness via Python's `set`, i.e. exact string equality), average
token confidence, and the three-level uncertainty label with its fixed
recommendation. -/
noncomputable def analyze_uncertainty (responses : List (Option String))
    (logprobs_data : List (Option (List ℚ))) : Analysis :=
  let valid_responses := responses.filterMap id
  let valid_logprobs := logprobs_data.filter fun lp => lp.isSome
  if valid_responses.length = 0 then
    { error := some "No valid responses received", uncertainty_level := "unknown" }
  else
    let unique_responses := valid_responses.dedup.length
    let response_diversity : ℚ := (unique_responses : ℚ) / (valid_responses.length : ℚ)
    let avg_confidence := calculate_average_confidence valid_logprobs
    let lr :=
      if response_diversity ≥ 0.8 then
        ("high",
         "The model is highly uncertain. Consider reformulating the question or providing more context.")
      else if response_diversity ≥ 0.4 then
        ("medium",
         "The model shows some uncertainty. You may want to verify the response or ask for clarification.")
      else
        ("low", "The model appears confident in its response.")
    { unique_responses := some unique_responses,
      total_samples := some valid_responses.length,
      response_diversity := some (roundTo response_diversity 3),
      average_token_confidence := some (roundToR avg_confidence 3),
      uncertainty_level := lr.1,
      recommendation := some lr.2 }

/-- The sampling loop of `measure_uncertainty` (lines 59-89): one provider
request per iteration, appending the returned `message.content` and
`logprobs` on success and `None`/`None` into both lists when the request
raises. -/
def run_samples (sampleOut : ℕ → Option (Option String × Option (List ℚ))) (count : ℕ) :
    List (Option String) × List (Option (List ℚ)) :=
  (List.range count).foldl
    (fun acc i =>
      match sampleOut i with
      | some r => (acc.1 ++ [r.1], acc.2 ++ [r.2])
      | none => (acc.1 ++ [none], acc.2 ++ [none]))
    ([], [])

/-- The dictionary returned by `measure_uncertainty`. -/
structure MeasureResult where
  prompt : String
  num_samples : ℕ
  responses : List (Option String)
  logprobs : List (Option (List ℚ))
  uncertainty_analysis : Analysis
  is_uncertain : Bool
  tool_response : String

/-- `UncertaintyMeasurer.measure_uncertainty`: samples, evaluates the certainty
ratio against the uncertainty phrases, picks the tool response, analyzes the
samples and attaches the ratio fields to the analysis.  `temperature` and
`max_tokens` only parametrize the provider requests and are absorbed into the
oracles. -/
noncomputable def measure_uncertainty (sampleOut : ℕ → Option (Option String × Option (List ℚ)))
    (phraseOut : String → Option (List ℚ)) (clarifyOut : Option String)
    (prompt : String) (num_samples : ℕ) (uncertainty_threshold : ℚ) : MeasureResult :=
  let rs := run_samples sampleOut num_samples
  let responses := rs.1
  let all_logprobs := rs.2
  let answer_mean_logprob := calculate_mean_logprob all_logprobs
  let phrase_logprobs := get_phrase_logprobs phraseOut uncertainty_phrases
  let uncertainty_phrase_mean := phrase_mean_logprob phrase_logprobs
  let uncertainty_ratio := compute_ratio uncertainty_phrase_mean answer_mean_logprob
  let is_uncertain := rvalGT uncertainty_ratio uncertainty_threshold
  let tool_response :=
    if is_uncertain then generate_uncertainty_message clarifyOut prompt responses
    else
      match responses.filterMap id with
      | [] => "Unable to generate response."
      | r :: _ => r
  let analysis := analyze_uncertainty responses all_logprobs
  { prompt := prompt,
    num_samples := num_samples,
    responses := responses,
    logprobs := all_logprobs,
    uncertainty_analysis :=
      { analysis with
        answer_mean_logprob := some (roundTo answer_mean_logprob 4),
        uncertainty_phrase_logprobs := some (phrase_logprobs.map fun kv => (kv.1, roundTo kv.2 4)),
        uncertainty_phrase_mean_logprob := some (roundTo uncertainty_phrase_mean 4),
        uncertainty_ratio := some (roundRV uncertainty_ratio 4),
        uncertainty_threshold := some uncertainty_threshold,
        is_uncertain := some is_uncertain },
    is_uncertain := is_uncertain,
    tool_response := tool_response }

/-- Python's `"=" * 80` (resp. `"-" * 80`). -/
def sep_line (c : String) : String := String.join (List.replicate 80 c)

/-- Python's `"\n".join(output)`. -/
def join_lines : List String → String
  | [] => ""
  | [s] => s
  | s :: rest => s ++ "\n" ++ join_lines rest

/-- Python's `str.upper()`: character-wise uppercase. -/
def str_upper (s : String) : String := String.mk (s.data.map Char.toUpper)

/-- Rendering of a rational-valued float field via the abstract float rendering
`fstr` (Python's `str` on floats, which the embedding leaves abstract). -/
def qstr (fstr : ℝ → String) (q : ℚ) : String := fstr (q : ℝ)

/-- Rendering of a possibly infinite float (Python prints `inf`). -/
def rvstr (fstr : ℝ → String) : RVal → String
  | RVal.fin q => fstr (q : ℝ)
  | RVal.inf => "inf"

/-- Rendering of an optional dictionary entry.  In `format_results` every key
read in the non-error branch is present whenever that branch is reached from
`measure_uncertainty`; the `none` case (a `KeyError` in Python) is unreachable
there and rendered as the empty string. -/
def optQstr (fstr : ℝ → String) : Option ℚ → String
  | some q => qstr fstr q
  | none => ""

/-- The `UNCERTAINTY ANALYSIS` section of `format_results`: the error line when
the analysis carries an `error` key, otherwise the level (upper-cased),
diversity, confidence, the ratio block (only when `uncertainty_ratio` is a key
of the analysis) and the recommendation. -/
def analysis_section (fstr : ℝ → String) (a : Analysis) : List String :=
  match a.error with
  | some e => ["\nError: " ++ e]
  | none =>
    ["\nUncertainty Level: " ++ str_upper a.uncertainty_level,
     "Response Diversity: " ++ optQstr fstr a.response_diversity ++ " (" ++
       toString (a.unique_responses.getD 0) ++ "/" ++ toString (a.total_samples.getD 0) ++
       " unique)",
     "Average Token Confidence: " ++
       (match a.average_token_confidence with
        | some x => fstr x
        | none => "")]
    ++ (match a.uncertainty_ratio with
        | some rv =>
          ["\nAnswer Mean Logprob: " ++ optQstr fstr a.answer_mean_logprob,
           "Uncertainty Phrases Mean Logprob: " ++ optQstr fstr a.uncertainty_phrase_mean_logprob,
           "Uncertainty Ratio: " ++ rvstr fstr rv,
           "Threshold: " ++ optQstr fstr a.uncertainty_threshold,
           "Status: " ++
             (if a.is_uncertain.getD false then "UNCERTAIN (ratio > threshold)"
              else "CONFIDENT (ratio <= threshold)")]
        | none => [])
    ++ ["\nRecommendation: " ++ a.recommendation.getD ""]

/-- The `INDIVIDUAL RESPONSES` loop of `format_results`:
`enumerate(results['responses'], 1)`, skipping failed samples and truncating
each response to 200 characters. -/
def responses_section : List (Option String) → ℕ → List String
  | [], _ => []
  | none :: rest, i => responses_section rest (i + 1)
  | some r :: rest, i =>
      ("\nResponse " ++ toString i ++ ":") ::
        (if r.length > 200 then r.take 200 ++ "..." else r) ::
        responses_section rest (i + 1)

/-- The `output` list of `UncertaintyMeasurer.format_results`, in order. -/
def format_output (fstr : ℝ → String) (results : MeasureResult) : List String :=
  [sep_line "=", "UNCERTAINTY MEASUREMENT RESULTS", sep_line "=",
   "\nPrompt: " ++ results.prompt,
   "\nNumber of samples: " ++ toString results.num_samples,
   "\n" ++ sep_line "-", "UNCERTAINTY ANALYSIS", sep_line "-"]
  ++ analysis_section fstr results.uncertainty_analysis
  ++ ["\n" ++ sep_line "-", "INDIVIDUAL RESPONSES", sep_line "-"]
  ++ responses_section results.responses 1
  ++ ["\n" ++ sep_line "="]

/-- `UncertaintyMeasurer.format_results`: pure rendering of a measurement
result, joined with newlines (`"\n".join(output)`). -/
def format_results (fstr : ℝ → String) (results : MeasureResult) : String :=
  join_lines (format_output fstr results)

/-- Whether the first character list is a prefix of the second. -/
def isPrefixB : List Char → List Char → Bool
  | [], _ => true
  | _ :: _, [] => false
  | a :: as, b :: bs => (a == b) && isPrefixB as bs

/-- Whether the first character list occurs contiguously in the second. -/
def isInfixB (needle : List Char) : List Char → Bool
  | [] => isPrefixB needle []
  | b :: bs => isPrefixB needle (b :: bs) || isInfixB needle bs

/-- Substring test (used to state the round-trip claims): `sub` occurs
contiguously in `s`. -/
def strContains (s sub : String) : Bool := isInfixB sub.data s.data

/-- The linear probabilities `2 ** lp` of all tokens of all valid entries
 (specification-side view of the confidence accumulation loop). -/
noncomputable def confTerms (logprobs_data : List (Option (List ℚ))) : List ℝ :=
  (flatTokens logprobs_data).map fun (t : ℚ) => (2 : ℝ) ^ (t : ℝ)

/-- Pointwise comparison of two token lists of equal shape. -/
def lqle : List ℚ → List ℚ → Bool
  | [], [] => true
  | x :: xs, y :: ys => decide (x ≤ y) && lqle xs ys
  | _, _ => false

/-- Pointwise comparison of two logprob data sets of equal shape: the same
success and failure pattern, the same per-sample token counts, and every token
log-probability of the first at most the corresponding one of the second. -/
def lple : List (Option (List ℚ)) → List (Option (List ℚ)) → Bool
  | [], [] => true
  | none :: xs, none :: ys => lple xs ys
  | some a :: xs, some b :: ys => lqle a b && lple xs ys
  | _, _ => false

theorem flatTokens_nil : flatTokens [] = [] := rfl

theorem flatTokens_none_cons (d : List (Option (List ℚ))) :
    flatTokens (none :: d) = flatTokens d := rfl

theorem flatTokens_some_cons (c : List ℚ) (d : List (Option (List ℚ))) :
    flatTokens (some c :: d) = c ++ flatTokens d := rfl

theorem fold_sum_length (c : List ℚ) (a : ℚ × ℕ) :
    c.foldl (fun (a : ℚ × ℕ) (t : ℚ) => (a.1 + t, a.2 + 1)) a = (a.1 + c.sum, a.2 + c.length) := by
  induction c generalizing a with
  | nil => simp
  | cons x xs ih =>
    simp only [List.foldl_cons, ih, List.sum_cons, List.length_cons]
    exact Prod.ext (by ring) (by omega)

theorem fold_conf_length (c : List ℚ) (a : ℝ × ℕ) :
    c.foldl (fun (a : ℝ × ℕ) (t : ℚ) => (a.1 + (2 : ℝ) ^ (t : ℝ), a.2 + 1)) a =
      (a.1 + (c.map fun (t : ℚ) => (2 : ℝ) ^ (t : ℝ)).sum, a.2 + c.length) := by
  induction c generalizing a with
  | nil => simp
  | cons x xs ih =>
    simp only [List.foldl_cons, ih, List.map_cons, List.sum_cons, List.length_cons]
    exact Prod.ext (by ring) (by omega)

theorem logprobTotals_eq (d : List (Option (List ℚ))) :
    logprobTotals d = ((flatTokens d).sum, (flatTokens d).length) := by
  have main : ∀ (d : List (Option (List ℚ))) (a : ℚ × ℕ),
      d.foldl
        (fun acc lp =>
          match lp with
          | none => acc
          | some content => content.foldl (fun (a : ℚ × ℕ) (t : ℚ) => (a.1 + t, a.2 + 1)) acc) a =
        (a.1 + (flatTokens d).sum, a.2 + (flatTokens d).length) := by
    intro d
    induction d with
    | nil => intro a; simp [flatTokens_nil]
    | cons o rest ih =>
      intro a
      cases o with
      | none => simpa [flatTokens_none_cons] using ih a
      | some c =>
        rw [List.foldl_cons]
        show (rest.foldl _
          (c.foldl (fun (a : ℚ × ℕ) (t : ℚ) => (a.1 + t, a.2 + 1)) a)) = _
        rw [fold_sum_length, ih, flatTokens_some_cons, List.sum_append, List.length_append]
        exact Prod.ext (by ring) (by omega)
  simpa [logprobTotals] using main d (0, 0)

theorem confidenceTotals_eq (d : List (Option (List ℚ))) :
    confidenceTotals d = ((confTerms d).sum, (flatTokens d).length) := by
  have main : ∀ (d : List (Option (List ℚ))) (a : ℝ × ℕ),
      d.foldl
        (fun acc lp =>
          match lp with
          | none => acc
          | some content =>
              content.foldl (fun (a : ℝ × ℕ) (t : ℚ) => (a.1 + (2 : ℝ) ^ (t : ℝ), a.2 + 1)) acc) a =
        (a.1 + (confTerms d).sum, a.2 + (flatTokens d).length) := by
    intro d
    induction d with
    | nil => intro a; simp [confTerms, flatTokens_nil]
    | cons o rest ih =>
      intro a
      cases o with
      | none => simpa [confTerms, flatTokens_none_cons] using ih a
      | some c =>
        rw [List.foldl_cons]
        show (rest.foldl _
          (c.foldl (fun (a : ℝ × ℕ) (t : ℚ) => (a.1 + (2 : ℝ) ^ (t : ℝ), a.2 + 1)) a)) = _
        rw [fold_conf_length, ih]
        simp only [confTerms, flatTokens_some_cons, List.map_append, List.sum_append,
          List.length_append]
        exact Prod.ext (by ring) (by omega)
  simpa [confidenceTotals] using main d (0, 0)

theorem calculate_mean_logprob_eq (d : List (Option (List ℚ))) :
    calculate_mean_logprob d =
      if (flatTokens d).length = 0 then 0
      else (flatTokens d).sum / ((flatTokens d).length : ℚ) := by
  simp [calculate_mean_logprob, logprobTotals_eq]

theorem calculate_average_confidence_eq (d : List (Option (List ℚ))) :
    calculate_average_confidence d =
      if (flatTokens d).length = 0 then 0
      else (confTerms d).sum / ((flatTokens d).length : ℝ) := by
  simp [calculate_average_confidence, confidenceTotals_eq]

theorem confTerms_pos (d : List (Option (List ℚ))) : ∀ x ∈ confTerms d, 0 < x := by
  intro x hx
  obtain ⟨t, -, rfl⟩ := List.mem_map.mp hx
  exact Real.rpow_pos_of_pos (by norm_num) _

/-- The average-token-confidence claim: `_calculate_average_confidence` is the
flat mean of `2 ** lp` over all tokens of all valid samples (not a per-sample
mean of means), it returns `0.0` when there are zero tokens in total, and when
every token log-probability is nonpositive the result lies in `[0, 1]`. -/
theorem C4_average_confidence (d : List (Option (List ℚ)))
    (h : ∀ lp ∈ flatTokens d, lp ≤ 0) :
    calculate_average_confidence d =
      (if (flatTokens d).length = 0 then 0
       else ((flatTokens d).map fun (t : ℚ) => (2 : ℝ) ^ (t : ℝ)).sum /
         ((flatTokens d).length : ℝ)) ∧
    calculate_average_confidence [] = 0 ∧
    0 ≤ calculate_average_confidence d ∧ calculate_average_confidence d ≤ 1 := by
  have heq := calculate_average_confidence_eq d
  refine ⟨heq, rfl, ?_, ?_⟩
  · rw [heq]
    split
    · exact le_refl 0
    · exact div_nonneg
        (List.sum_nonneg fun x hx => le_of_lt (confTerms_pos d x hx))
        (Nat.cast_nonneg _)
  · rw [heq]
    split
    · exact zero_le_one
    · rename_i hne
      have hlenpos : (0 : ℝ) < ((flatTokens d).length : ℝ) := by
        exact_mod_cast Nat.pos_of_ne_zero hne
      rw [div_le_one hlenpos]
      have hle : ∀ x ∈ confTerms d, x ≤ 1 := by
        intro x hx
        obtain ⟨t, ht, rfl⟩ := List.mem_map.mp hx
        exact Real.rpow_le_one_of_one_le_of_nonpos (by norm_num)
          (by exact_mod_cast h t ht)
      calc (confTerms d).sum ≤ (confTerms d).length • (1 : ℝ) :=
        List.sum_le_card_nsmul _ _ hle
      _ = ((flatTokens d).length : ℝ) := by
        simp [confTerms]

/-- Witness for `C4_average_confidence` at a concrete input with one failed
sample and three tokens. -/
theorem C4_average_confidence_witness :
    (∀ lp ∈ flatTokens [some [-1], none, some [0, -2]], lp ≤ 0) ∧
    (0 ≤ calculate_average_confidence [some [-1], none, some [0, -2]] ∧
      calculate_average_confidence [some [-1], none, some [0, -2]] ≤ 1) :=
  ⟨by decide, (C4_average_confidence [some [-1], none, some [0, -2]] (by decide)).2.2⟩

theorem lqle_sum_length (a b : List ℚ) (h : lqle a b = true) :
    ((a.map fun (t : ℚ) => (2 : ℝ) ^ (t : ℝ)).sum ≤
      (b.map fun (t : ℚ) => (2 : ℝ) ^ (t : ℝ)).sum) ∧ a.length = b.length := by
  induction a generalizing b with
  | nil =>
    cases b with
    | nil => simp
    | cons y ys => simp [lqle] at h
  | cons x xs ih =>
    cases b with
    | nil => simp [lqle] at h
    | cons y ys =>
      rw [lqle, Bool.and_eq_true, decide_eq_true_eq] at h
      obtain ⟨hsum, hlen⟩ := ih ys h.2
      refine ⟨?_, by simp [hlen]⟩
      simp only [List.map_cons, List.sum_cons]
      have hxy : (2 : ℝ) ^ ((x : ℚ) : ℝ) ≤ (2 : ℝ) ^ ((y : ℚ) : ℝ) :=
        Real.rpow_le_rpow_of_exponent_le (by norm_num) (by exact_mod_cast h.1)
      exact add_le_add hxy hsum

theorem lple_flat (d₁ d₂ : List (Option (List ℚ))) (h : lple d₁ d₂ = true) :
    ((confTerms d₁).sum ≤ (confTerms d₂).sum) ∧
      (flatTokens d₁).length = (flatTokens d₂).length := by
  induction d₁ generalizing d₂ with
  | nil =>
    cases d₂ with
    | nil => simp [confTerms, flatTokens]
    | cons o ys => simp [lple] at h
  | cons o xs ih =>
    cases d₂ with
    | nil => cases o <;> simp [lple] at h
    | cons o' ys =>
      cases o with
      | none =>
        cases o' with
        | none =>
          rw [lple] at h
          simpa [confTerms, flatTokens_none_cons] using ih ys h
        | some b => simp [lple] at h
      | some a =>
        cases o' with
        | none => simp [lple] at h
        | some b =>
          rw [lple, Bool.and_eq_true] at h
          obtain ⟨hsum, hlen⟩ := ih ys h.2
          obtain ⟨hsum', hlen'⟩ := lqle_sum_length a b h.1
          constructor
          · simpa [confTerms, flatTokens_some_cons, List.map_append, List.sum_append] using
              add_le_add hsum' hsum
          · simp [flatTokens_some_cons, List.length_append, hlen, hlen']

/-- The monotonicity claim: for equally shaped logprob data (same
success/failure pattern and token counts), raising every token
log-probability pointwise can only raise the average confidence returned by
`_calculate_average_confidence`. -/
theorem C5_confidence_monotonic (d₁ d₂ : List (Option (List ℚ)))
    (h : lple d₁ d₂ = true) :
    calculate_average_confidence d₁ ≤ calculate_average_confidence d₂ := by
  obtain ⟨hsum, hlen⟩ := lple_flat d₁ d₂ h
  rw [calculate_average_confidence_eq, calculate_average_confidence_eq, hlen]
  split
  · exact le_refl 0
  · rename_i hne
    have hlenpos : (0 : ℝ) < ((flatTokens d₂).length : ℝ) := by
      exact_mod_cast Nat.pos_of_ne_zero hne
    gcongr

/-- Witness for `C5_confidence_monotonic` at concrete equally shaped inputs. -/
theorem C5_confidence_monotonic_witness :
    lple [some [-2, -3], none] [some [-1, -3], none] = true ∧
    calculate_average_confidence [some [-2, -3], none] ≤
      calculate_average_confidence [some [-1, -3], none] :=
  ⟨by decide, C5_confidence_monotonic _ _ (by decide)⟩

/-- The certainty-ratio claim: the ratio is `phraseMean / answerMean` when the
answer mean is nonzero, `float('inf')` when the answer mean is zero and the
phrase mean positive, `0.0` otherwise; the verdict `is_uncertain` holds
exactly when the ratio (as an extended real) strictly exceeds the threshold,
and `measure_uncertainty` derives its verdict from exactly this computation. -/
theorem C2_certainty_ratio (pm am t : ℚ)
    (s : ℕ → Option (Option String × Option (List ℚ))) (ph : String → Option (List ℚ))
    (cl : Option String) (p : String) (n : ℕ) :
    (am ≠ 0 → compute_ratio pm am = RVal.fin (pm / am)) ∧
    (am = 0 → 0 < pm → compute_ratio pm am = RVal.inf) ∧
    (am = 0 → ¬ 0 < pm → compute_ratio pm am = RVal.fin 0) ∧
    (rvalGT (compute_ratio pm am) t = true ↔
      ((t : ℝ) : EReal) < (compute_ratio pm am).toEReal) ∧
    (measure_uncertainty s ph cl p n t).is_uncertain =
      rvalGT
        (compute_ratio (phrase_mean_logprob (get_phrase_logprobs ph uncertainty_phrases))
          (calculate_mean_logprob (run_samples s n).2)) t := by
  refine ⟨?_, ?_, ?_, ?_, rfl⟩
  · intro h; simp [compute_ratio, h]
  · intro h h2; subst h; simp [compute_ratio, h2]
  · intro h h2; subst h; simp [compute_ratio, h2]
  · cases hc : compute_ratio pm am with
    | fin q =>
      simp [rvalGT, RVal.toEReal, EReal.coe_lt_coe_iff, Rat.cast_lt]
    | inf =>
      simp [rvalGT, RVal.toEReal, EReal.coe_lt_top]

/-- Witness for `C2_certainty_ratio`: a nonzero answer mean yields the plain
quotient. -/
theorem C2_certainty_ratio_witness :
    ((-1 : ℚ) ≠ 0) ∧ compute_ratio (-2) (-1) = RVal.fin ((-2 : ℚ) / (-1)) :=
  ⟨by decide,
    (C2_certainty_ratio (-2) (-1) 1 (fun _ => none) (fun _ => none) none "" 0).1 (by decide)⟩

/-- The diversity claim: on a non-empty batch of valid texts the analysis
reports the number of distinct texts (exact string equality, stated via
`toFinset.card`), the total count, the 3-decimal rounding of the ratio
`uniqueCount / totalCount`, and the level is "high" for a ratio of at least
4/5, "medium" for a ratio in [2/5, 4/5), and "low" below 2/5. -/
theorem C3_diversity (texts : List String) (h : texts ≠ []) :
    (analyze_uncertainty (texts.map some) []).unique_responses = some texts.toFinset.card ∧
    (analyze_uncertainty (texts.map some) []).total_samples = some texts.length ∧
    (analyze_uncertainty (texts.map some) []).response_diversity =
      some (roundTo ((texts.toFinset.card : ℚ) / (texts.length : ℚ)) 3) ∧
    ((4 : ℚ) / 5 ≤ (texts.toFinset.card : ℚ) / (texts.length : ℚ) →
      (analyze_uncertainty (texts.map some) []).uncertainty_level = "high") ∧
    ((2 : ℚ) / 5 ≤ (texts.toFinset.card : ℚ) / (texts.length : ℚ) →
      (texts.toFinset.card : ℚ) / (texts.length : ℚ) < 4 / 5 →
      (analyze_uncertainty (texts.map some) []).uncertainty_level = "medium") ∧
    ((texts.toFinset.card : ℚ) / (texts.length : ℚ) < 2 / 5 →
      (analyze_uncertainty (texts.map some) []).uncertainty_level = "low") := by
  have hfil : (texts.map some).filterMap id = texts := by
    simp [List.filterMap_map]
  have hlen : texts.length ≠ 0 := fun h0 => h (List.length_eq_zero.mp h0)
  have hcard : texts.toFinset.card = texts.dedup.length := List.card_toFinset texts
  rw [analyze_uncertainty]
  simp only [hfil, if_neg hlen, hcard]
  have h08 : (0.8 : ℚ) = 4 / 5 := by norm_num
  have h04 : (0.4 : ℚ) = 2 / 5 := by norm_num
  refine ⟨trivial, trivial, trivial, ?_, ?_, ?_⟩
  · intro hr
    rw [if_pos (by rw [h08]; exact hr)]
  · intro hr hr'
    rw [if_neg (by rw [h08]; exact not_le.mpr hr'), if_pos (by rw [h04]; exact hr)]
  · intro hr
    rw [if_neg (by rw [h08]; exact not_le.mpr (hr.trans (by norm_num))),
      if_neg (by rw [h04]; exact not_le.mpr hr)]

/-- Witness for `C3_diversity`: three identical answers give diversity 1/3 and
level "low". -/
theorem C3_diversity_witness :
    (["a", "a", "a"] : List String) ≠ [] ∧
    (analyze_uncertainty ((["a", "a", "a"] : List String).map some) []).uncertainty_level =
      "low" :=
  ⟨by decide,
    (C3_diversity ["a", "a", "a"] (by decide)).2.2.2.2.2 (by norm_num)⟩

theorem run_samples_eq (s : ℕ → Option (Option String × Option (List ℚ))) (count : ℕ) :
    run_samples s count =
      ((List.range count).map fun i => (s i).bind fun r => r.1,
       (List.range count).map fun i => (s i).bind fun r => r.2) := by
  have main : ∀ (l : List ℕ) (acc : List (Option String) × List (Option (List ℚ))),
      l.foldl
        (fun acc i =>
          match s i with
          | some r => (acc.1 ++ [r.1], acc.2 ++ [r.2])
          | none => (acc.1 ++ [none], acc.2 ++ [none])) acc =
        (acc.1 ++ l.map fun i => (s i).bind fun r => r.1,
         acc.2 ++ l.map fun i => (s i).bind fun r => r.2) := by
    intro l
    induction l with
    | nil => intro acc; simp
    | cons i rest ih =>
      intro acc
      rw [List.foldl_cons]
      cases hs : s i with
      | none =>
        simp only [hs, ih, List.map_cons]
        simp [List.append_assoc]
      | some r =>
        simp only [hs, ih, List.map_cons]
        simp [List.append_assoc]
  simpa [run_samples] using main (List.range count) ([], [])

/-- The sampler claim: for any requested count the two result lists have
length exactly `count`, and the entry at every position `i` is exactly the
outcome of request `i` — a failed request contributes a `None` entry in place
and never aborts the batch or shifts other samples. -/
theorem C6_sampler (s : ℕ → Option (Option String × Option (List ℚ))) (count i : ℕ)
    (h : i < count) :
    (run_samples s count).1.length = count ∧
    (run_samples s count).2.length = count ∧
    (run_samples s count).1[i]? = some ((s i).bind fun r => r.1) ∧
    (run_samples s count).2[i]? = some ((s i).bind fun r => r.2) := by
  rw [run_samples_eq]
  refine ⟨by simp, by simp, ?_, ?_⟩ <;>
    simp [List.getElem?_map, List.getElem?_range, h]

/-- Witness for `C6_sampler`: with the middle request of three failing, the
middle entries are `None` and the lengths are 3. -/
theorem C6_sampler_witness :
    (1 < 3) ∧
    (run_samples
      (fun i => if i = 1 then none else some (some "ok", some [-1])) 3).1[1]? = some none :=
  ⟨by decide,
    (C6_sampler (fun i => if i = 1 then none else some (some "ok", some [-1])) 3 1
      (by decide)).2.2.1⟩

set_option maxRecDepth 100000 in
/-- The fallback-generation claim: when the provider call of
`_generate_uncertainty_message` fails, the returned value is the fixed generic
clarification string (which still invites the user to clarify) — the function
is total, so this path never raises. -/
theorem C7_fallback_message (p : String) (rs : List (Option String)) :
    generate_uncertainty_message none p rs =
      "I'm unsure about how to answer this question accurately. Could you please provide more information or clarify your question?" ∧
    strContains (generate_uncertainty_message none p rs) "clarify" = true := by
  have hmsg : generate_uncertainty_message none p rs =
      "I'm unsure about how to answer this question accurately. Could you please provide more information or clarify your question?" :=
    rfl
  exact ⟨hmsg, by rw [hmsg]; decide⟩

theorem run_samples_all_none (s : ℕ → Option (Option String × Option (List ℚ))) (n : ℕ)
    (h : ∀ i, i < n → s i = none) :
    run_samples s n = (List.replicate n none, List.replicate n none) := by
  rw [run_samples_eq]
  refine Prod.ext ?_ ?_ <;>
  · refine List.eq_replicate_iff.mpr ⟨by simp, ?_⟩
    intro b hb
    obtain ⟨i, hi, rfl⟩ := List.mem_map.mp hb
    rw [h i (List.mem_range.mp hi)]
    rfl

theorem filterMap_id_map_some {α : Type} (l : List α) : (l.map some).filterMap id = l := by
  induction l with
  | nil => rfl
  | cons x xs ih => simp [ih]

theorem filterMap_id_replicate_none {α : Type} (n : ℕ) :
    (List.replicate n (none : Option α)).filterMap id = [] := by
  induction n with
  | zero => rfl
  | succ m ih => rw [List.replicate_succ, List.filterMap_cons]; simpa using ih

theorem flatTokens_replicate_none (n : ℕ) :
    flatTokens (List.replicate n none) = [] := by
  rw [flatTokens, filterMap_id_replicate_none]
  rfl

theorem mean_logprob_replicate_none (n : ℕ) :
    calculate_mean_logprob (List.replicate n none) = 0 := by
  rw [calculate_mean_logprob_eq, flatTokens_replicate_none]
  simp

theorem analyze_all_failed (responses : List (Option String))
    (lps : List (Option (List ℚ))) (h : responses.filterMap id = []) :
    analyze_uncertainty responses lps =
      { error := some "No valid responses received", uncertainty_level := "unknown" } := by
  rw [analyze_uncertainty]
  simp [h]

/-- The amended all-samples-failed claim: when every sampling request fails,
`measure_uncertainty` returns (without raising) an error-state analysis with
`error` set and level "unknown" and with no diversity/confidence fields — but
the pipeline does not short-circuit: the phrase-logprob ratio evaluation still
runs (against an answer mean of 0), its rounded result is attached to the
error analysis, and the verdict is still computed from it (so fallback
generation is still reached whenever that degenerate ratio exceeds the
threshold). -/
theorem C1_all_samples_failed (s : ℕ → Option (Option String × Option (List ℚ)))
    (ph : String → Option (List ℚ)) (cl : Option String) (p : String) (n : ℕ) (t : ℚ)
    (h : ∀ i, i < n → s i = none) :
    (measure_uncertainty s ph cl p n t).uncertainty_analysis.error =
      some "No valid responses received" ∧
    (measure_uncertainty s ph cl p n t).uncertainty_analysis.uncertainty_level = "unknown" ∧
    (measure_uncertainty s ph cl p n t).uncertainty_analysis.unique_responses = none ∧
    (measure_uncertainty s ph cl p n t).uncertainty_analysis.total_samples = none ∧
    (measure_uncertainty s ph cl p n t).uncertainty_analysis.response_diversity = none ∧
    (measure_uncertainty s ph cl p n t).uncertainty_analysis.average_token_confidence = none ∧
    (measure_uncertainty s ph cl p n t).uncertainty_analysis.recommendation = none ∧
    (measure_uncertainty s ph cl p n t).uncertainty_analysis.uncertainty_ratio =
      some (roundRV
        (compute_ratio (phrase_mean_logprob (get_phrase_logprobs ph uncertainty_phrases)) 0) 4) ∧
    (measure_uncertainty s ph cl p n t).is_uncertain =
      rvalGT (compute_ratio (phrase_mean_logprob (get_phrase_logprobs ph uncertainty_phrases)) 0)
        t := by
  have hrs := run_samples_all_none s n h
  have hmean : calculate_mean_logprob (run_samples s n).2 = 0 := by
    rw [hrs]; exact mean_logprob_replicate_none n
  have hana : analyze_uncertainty (run_samples s n).1 (run_samples s n).2 =
      { error := some "No valid responses received", uncertainty_level := "unknown" } := by
    rw [hrs]; exact analyze_all_failed _ _ (filterMap_id_replicate_none n)
  simp only [measure_uncertainty, hmean, hana]
  exact ⟨by trivial, by trivial, by trivial, by trivial, by trivial, by trivial, by trivial,
    by trivial, by trivial⟩

/-- Witness for `C1_all_samples_failed`: two failing requests, succeeding
phrase requests. -/
theorem C1_all_samples_failed_witness :
    (measure_uncertainty (fun _ => none) (fun _ => some [-2]) none "q" 2 1).uncertainty_analysis.uncertainty_level =
      "unknown" :=
  (C1_all_samples_failed (fun _ => none) (fun _ => some [-2]) none "q" 2 1
      (fun _ _ => rfl)).2.1

/-- Counterexample to the all-samples-failed claim as stated: in a concrete
run where every sampling request fails (and the phrase requests succeed), the
returned error analysis nevertheless carries a computed certainty-ratio field
(`0.0`), because the pipeline does not bypass ratio evaluation. -/
theorem C1_counterexample :
    (measure_uncertainty (fun _ => none) (fun _ => some [-1]) none "q" 2 1).uncertainty_analysis.error =
      some "No valid responses received" ∧
    (measure_uncertainty (fun _ => none) (fun _ => some [-1]) none "q" 2 1).uncertainty_analysis.uncertainty_ratio =
      some (RVal.fin 0) := by
  have hrs := run_samples_all_none (fun _ => none) 2 (fun _ _ => rfl)
  have hana : analyze_uncertainty
      (run_samples (fun _ => none) 2).1 (run_samples (fun _ => none) 2).2 =
      { error := some "No valid responses received", uncertainty_level := "unknown" } := by
    rw [hrs]; exact analyze_all_failed _ _ (filterMap_id_replicate_none 2)
  have hmean : calculate_mean_logprob (run_samples (fun _ => none) 2).2 = 0 := by
    rw [hrs]; exact mean_logprob_replicate_none 2
  have hpm : phrase_mean_logprob
      (get_phrase_logprobs (fun _ => some [-1]) uncertainty_phrases) = -1 := by
    norm_num [phrase_mean_logprob, get_phrase_logprobs, uncertainty_phrases,
      calculate_mean_logprob, logprobTotals]
  have hratio : compute_ratio
      (phrase_mean_logprob (get_phrase_logprobs (fun _ => some [-1]) uncertainty_phrases))
      (calculate_mean_logprob (run_samples (fun _ => none) 2).2) = RVal.fin 0 := by
    rw [hpm, hmean]
    norm_num [compute_ratio]
  constructor
  · simp only [measure_uncertainty, hana]
  · simp only [measure_uncertainty, hratio, hana]
    have : roundTo 0 4 = 0 := by norm_num [roundTo, roundHalfEven]
    simp [roundRV, this]

/-- The text-independence claim: two runs whose providers return the same
per-request success pattern and the same per-token log-probability data (but
arbitrary, possibly different, response texts) produce the same certainty
ratio and the same verdict — answer diversity never feeds the
UNCERTAIN/CONFIDENT decision. -/
theorem C9_verdict_text_independent (s₁ s₂ : ℕ → Option (Option String × Option (List ℚ)))
    (ph : String → Option (List ℚ)) (cl₁ cl₂ : Option String) (p : String) (n : ℕ) (t : ℚ)
    (h : ∀ i, i < n → (s₁ i).map (fun r => r.2) = (s₂ i).map (fun r => r.2)) :
    (measure_uncertainty s₁ ph cl₁ p n t).uncertainty_analysis.uncertainty_ratio =
      (measure_uncertainty s₂ ph cl₂ p n t).uncertainty_analysis.uncertainty_ratio ∧
    (measure_uncertainty s₁ ph cl₁ p n t).is_uncertain =
      (measure_uncertainty s₂ ph cl₂ p n t).is_uncertain := by
  have hbind : ∀ i ∈ List.range n,
      ((s₁ i).bind fun r => r.2) = ((s₂ i).bind fun r => r.2) := by
    intro i hi
    have hm := h i (List.mem_range.mp hi)
    cases h₁ : s₁ i <;> cases h₂ : s₂ i <;> rw [h₁, h₂] at hm <;> simp_all
  have h2 : (run_samples s₁ n).2 = (run_samples s₂ n).2 := by
    rw [run_samples_eq, run_samples_eq]
    exact List.map_congr_left hbind
  constructor
  · show some (roundRV (compute_ratio
        (phrase_mean_logprob (get_phrase_logprobs ph uncertainty_phrases))
        (calculate_mean_logprob (run_samples s₁ n).2)) 4) = _
    rw [h2]
    exact rfl
  · show rvalGT (compute_ratio
        (phrase_mean_logprob (get_phrase_logprobs ph uncertainty_phrases))
        (calculate_mean_logprob (run_samples s₁ n).2)) t = _
    rw [h2]
    exact rfl

/-- Witness for `C9_verdict_text_independent`: identical logprobs with
different texts "A" and "B". -/
theorem C9_verdict_text_independent_witness :
    (measure_uncertainty (fun _ => some (some "A", some [-1])) (fun _ => some [-2]) none
        "q" 2 1).is_uncertain =
      (measure_uncertainty (fun _ => some (some "B", some [-1])) (fun _ => some [-2]) none
        "q" 2 1).is_uncertain :=
  (C9_verdict_text_independent (fun _ => some (some "A", some [-1]))
      (fun _ => some (some "B", some [-1])) (fun _ => some [-2]) none none "q" 2 1
      (fun _ _ => rfl)).2

/-- The amended valid-analysis claim: with at least one successful sample the
analysis has no error field, its level is one of "low"/"medium"/"high", its
total is the valid-sample count, and its stored diversity is the 3-decimal
rounding of a ratio lying in `[1/totalSamples, 1]` (the rounded stored value
itself can drop below `1/totalSamples` once the batch exceeds 2000 samples). -/
theorem C10_valid_analysis (responses : List (Option String)) (lps : List (Option (List ℚ)))
    (h : responses.filterMap id ≠ []) :
    (analyze_uncertainty responses lps).error = none ∧
    ((analyze_uncertainty responses lps).uncertainty_level = "low" ∨
     (analyze_uncertainty responses lps).uncertainty_level = "medium" ∨
     (analyze_uncertainty responses lps).uncertainty_level = "high") ∧
    (analyze_uncertainty responses lps).total_samples =
      some (responses.filterMap id).length ∧
    ∃ q : ℚ, (analyze_uncertainty responses lps).response_diversity = some (roundTo q 3) ∧
      1 / ((responses.filterMap id).length : ℚ) ≤ q ∧ q ≤ 1 := by
  have hlen : (responses.filterMap id).length ≠ 0 := by
    simpa [List.length_eq_zero] using h
  have h1 : 1 ≤ (responses.filterMap id).dedup.length := by
    rw [Nat.one_le_iff_ne_zero, Ne, ← List.length_eq_zero] at *
    simpa [List.dedup_eq_nil] using h
  have h2 : (responses.filterMap id).dedup.length ≤ (responses.filterMap id).length :=
    (List.dedup_sublist _).length_le
  have hlpos : (0 : ℚ) < ((responses.filterMap id).length : ℚ) := by
    exact_mod_cast Nat.pos_of_ne_zero hlen
  simp only [analyze_uncertainty, if_neg hlen]
  refine ⟨by trivial, ?_, by trivial, ?_⟩
  · split_ifs <;> simp
  · refine ⟨((responses.filterMap id).dedup.length : ℚ) /
      ((responses.filterMap id).length : ℚ), rfl, ?_, ?_⟩
    · gcongr
      exact_mod_cast h1
    · rw [div_le_one hlpos]
      exact_mod_cast h2

/-- Witness for `C10_valid_analysis`: a batch with one failure and two
distinct valid answers. -/
theorem C10_valid_analysis_witness :
    ([some "x", none, some "y"] : List (Option String)).filterMap id ≠ [] ∧
    (analyze_uncertainty [some "x", none, some "y"] []).error = none :=
  ⟨by decide, (C10_valid_analysis [some "x", none, some "y"] [] (by decide)).1⟩

/-- Counterexample to the valid-analysis claim as stated: with 2001 identical
valid answers the stored `response_diversity` is the 3-decimal rounding of
`1/2001`, namely `0.0`, which falls outside `[1/2001, 1]`. -/
theorem C10_counterexample :
    (analyze_uncertainty (List.replicate 2001 (some "a")) []).response_diversity = some 0 ∧
    ¬ ((1 : ℚ) / ((2001 : ℕ) : ℚ) ≤ 0) := by
  constructor
  · have hfil : (List.replicate 2001 (some "a")).filterMap id = List.replicate 2001 "a" := by
      rw [← List.map_replicate]
      exact filterMap_id_map_some _
    have hded : (List.replicate 2001 "a").dedup = ["a"] :=
      List.replicate_dedup (by norm_num)
    have hlen : (List.replicate 2001 "a").length = 2001 := List.length_replicate _ _
    simp only [analyze_uncertainty, hfil, hded, hlen]
    rw [if_neg (by norm_num)]
    simp only [List.length_singleton]
    norm_num [roundTo, roundHalfEven]
  · norm_num

theorem join_lines_cons (s : String) (l : List String) (h : l ≠ []) :
    join_lines (s :: l) = s ++ "\n" ++ join_lines l := by
  cases l with
  | nil => exact absurd rfl h
  | cons t r => rfl

theorem join_lines_mem_data (a : String) (l : List String) (h : a ∈ l) :
    a.data <:+: (join_lines l).data := by
  induction l with
  | nil => cases h
  | cons b rest ih =>
    cases rest with
    | nil =>
      rw [List.mem_singleton.mp h]
      exact List.infix_refl _
    | cons t r =>
      rw [join_lines_cons b (t :: r) (by simp), String.data_append, String.data_append]
      rcases List.mem_cons.mp h with rfl | hmem
      · rw [List.append_assoc]
        exact (List.prefix_append _ _).isInfix
      · exact (ih hmem).trans (List.suffix_append _ _).isInfix

theorem isPrefixB_holds : ∀ (a b : List Char), a <+: b → isPrefixB a b = true
  | [], _, _ => rfl
  | x :: xs, [], h => absurd (List.prefix_nil.mp h) (by simp)
  | x :: xs, y :: ys, h => by
    obtain ⟨rfl, h2⟩ := List.cons_prefix_cons.mp h
    simp [isPrefixB, isPrefixB_holds xs ys h2]

theorem isInfixB_holds (a b : List Char) (h : a <:+: b) : isInfixB a b = true := by
  induction b with
  | nil =>
    rw [List.infix_nil.mp h]
    rfl
  | cons y ys ih =>
    rw [isInfixB]
    rcases List.infix_cons_iff.mp h with hp | hi
    · simp [isPrefixB_holds _ _ hp]
    · simp [ih hi]

theorem strContains_mem (l : List String) (pre mid : String) (h : (pre ++ mid) ∈ l) :
    strContains (join_lines l) mid = true := by
  have h1 : mid.data <:+: (pre ++ mid).data := by
    rw [String.data_append]
    exact (List.suffix_append _ _).isInfix
  rw [strContains]
  exact isInfixB_holds _ _ (h1.trans (join_lines_mem_data _ _ h))

theorem analysis_section_level_mem (fstr : ℝ → String) (a : Analysis) (h : a.error = none) :
    ("\nUncertainty Level: " ++ str_upper a.uncertainty_level) ∈ analysis_section fstr a := by
  simp [analysis_section, h]

theorem analyze_error_none (responses : List (Option String)) (lps : List (Option (List ℚ)))
    (h : responses.filterMap id ≠ []) :
    (analyze_uncertainty responses lps).error = none := by
  have hlen : (responses.filterMap id).length ≠ 0 := by
    simpa [List.length_eq_zero] using h
  simp only [analyze_uncertainty, if_neg hlen]

theorem measure_error_eq (s : ℕ → Option (Option String × Option (List ℚ)))
    (ph : String → Option (List ℚ)) (cl : Option String) (p : String) (n : ℕ) (t : ℚ) :
    (measure_uncertainty s ph cl p n t).uncertainty_analysis.error =
      (analyze_uncertainty (run_samples s n).1 (run_samples s n).2).error := rfl

theorem level_mem_format_output (fstr : ℝ → String) (r : MeasureResult)
    (h : r.uncertainty_analysis.error = none) :
    ("\nUncertainty Level: " ++ str_upper r.uncertainty_analysis.uncertainty_level) ∈
      format_output fstr r := by
  have hmem := analysis_section_level_mem fstr r.uncertainty_analysis h
  rw [format_output]
  exact List.mem_append_left _ (List.mem_append_left _ (List.mem_append_left _
    (List.mem_append_right _ hmem)))

/-- The amended round-trip claim: `format(measure(p))` always contains the
literal prompt text; it contains the uppercase rendering of the computed
uncertainty level whenever at least one sample succeeded — in the degenerate
all-samples-failed case the formatter prints only the error line, so the
level ("UNKNOWN") is not rendered. -/
theorem C8_format_roundtrip (fstr : ℝ → String)
    (s : ℕ → Option (Option String × Option (List ℚ))) (ph : String → Option (List ℚ))
    (cl : Option String) (p : String) (n : ℕ) (t : ℚ) :
    strContains (format_results fstr (measure_uncertainty s ph cl p n t)) p = true ∧
    ((measure_uncertainty s ph cl p n t).responses.filterMap id ≠ [] →
      strContains (format_results fstr (measure_uncertainty s ph cl p n t))
        (str_upper (measure_uncertainty s ph cl p n t).uncertainty_analysis.uncertainty_level) =
        true) := by
  constructor
  · have hmem : ("\nPrompt: " ++ (measure_uncertainty s ph cl p n t).prompt) ∈
        format_output fstr (measure_uncertainty s ph cl p n t) := by
      rw [format_output]
      exact List.mem_append_left _ (List.mem_append_left _ (List.mem_append_left _
        (List.mem_append_left _ (by simp))))
    exact strContains_mem _ "\nPrompt: " _ hmem
  · intro hne
    have herr : (measure_uncertainty s ph cl p n t).uncertainty_analysis.error = none := by
      rw [measure_error_eq]
      exact analyze_error_none _ _ hne
    exact strContains_mem _ "\nUncertainty Level: " _
      (level_mem_format_output fstr _ herr)

/-- Witness for `C8_format_roundtrip`: one successful sample; the output
contains the upper-cased level. -/
theorem C8_format_roundtrip_witness :
    ((measure_uncertainty (fun _ => some (some "Paris", some [-1])) (fun _ => some [-2]) none
        "capital?" 1 1).responses.filterMap id ≠ []) ∧
    strContains
      (format_results (fun _ => "")
        (measure_uncertainty (fun _ => some (some "Paris", some [-1])) (fun _ => some [-2]) none
          "capital?" 1 1))
      (str_upper (measure_uncertainty (fun _ => some (some "Paris", some [-1]))
          (fun _ => some [-2]) none
          "capital?" 1 1).uncertainty_analysis.uncertainty_level) = true :=
  ⟨by decide,
    (C8_format_roundtrip (fun _ => "") (fun _ => some (some "Paris", some [-1]))
        (fun _ => some [-2]) none "capital?" 1 1).2 (by decide)⟩

set_option maxRecDepth 100000 in
/-- Counterexample to the round-trip claim as stated: in a concrete run where
every sampling request fails, the computed level is "unknown" but the
formatted output does not contain its uppercase rendering "UNKNOWN" — the
formatter prints only the error line for the degenerate analysis. -/
theorem C8_format_counterexample :
    (measure_uncertainty (fun _ => none) (fun _ => none) none "What?" 1
        1).uncertainty_analysis.uncertainty_level = "unknown" ∧
    strContains
      (format_results (fun _ => "")
        (measure_uncertainty (fun _ => none) (fun _ => none) none "What?" 1 1))
      (str_upper "unknown") = false := by
  constructor
  · decide
  · decide

end Unc
